import Mathlib

/-!
Shallow embedding of the teaching snippets in the t2g_webdev_resources
repository: the mocked `fetchUser` promise and promise chain from the
JavaScript ES6 material, the `Developer` and `GitRepository` classes from
the TypeScript OOP material (both the `oop.ts` file and the two copies of
the OOP guide), the generic `DataStorage<T>` container, the cached
`DataProcessor.fetchData`, and the hand-rolled range iterator.
Each definition is translated directly from the corresponding source
snippet; theorems below settle the specification claims about them.
-/

namespace Spec2Proof

/-! ### Promises

A settled JavaScript promise either resolved with a value or rejected
with an error.  `thenP` is `.then(f)` on an already-settled promise:
it feeds a resolution through `f` and propagates a rejection. -/

inductive PromiseResult (ε : Type) (α : Type) where
  | resolved : α → PromiseResult ε α
  | rejected : ε → PromiseResult ε α
deriving DecidableEq, Repr

def thenP {ε α β : Type} (p : PromiseResult ε α) (f : α → PromiseResult ε β) :
    PromiseResult ε β :=
  match p with
  | .resolved a => f a
  | .rejected e => .rejected e

/-- Whether the `.catch` handler of a chain ending in this settled
promise runs: it does exactly when the promise rejected. -/
def catchRuns {ε α : Type} (p : PromiseResult ε α) : Bool :=
  match p with
  | .resolved _ => false
  | .rejected _ => true

/-! ### `fetchUser` from `src/Javascript/es6_demo.js`

```js
function fetchUser(user_id) {
    const usersId = 1;
    return new Promise((resolve, reject) => {
    setTimeout(() => {
        if(user_id = usersId){
            resolve({id: user_id, name: 'Tiff'})
        } else {
            reject('Failed to fetch user')
        }
    }, 1000);
    })
}
```

The condition `user_id = usersId` is a JavaScript *assignment*, not a
comparison: it assigns `usersId` (that is, `1`) to `user_id`, and the
`if` then tests the value of the assignment expression, `1`, which is
truthy.  The embedding reproduces exactly that: the parameter is
overwritten by the assignment, the branch tests the truthiness of the
assigned number, and the resolved object uses the overwritten value. -/

structure UserObj where
  id : Int
  name : String
deriving DecidableEq, Repr

def fetchUser (user_id : Int) : PromiseResult String UserObj :=
  let usersId : Int := 1
  let user_id : Int := usersId
  if user_id ≠ 0 then
    .resolved { id := user_id, name := "Tiff" }
  else
    .rejected "Failed to fetch user"

/-! ### The `Developer` class from `src/8. Typescript/oop.ts`

```ts
class Developer {
    name: string;
    caffeineLevels: number;
    constructor(name:string) { this.name = name; this.caffeineLevels = 0; }
    drinkCoffee(): void {
        this.caffeineLevels += 2;
        console.log(`...new caffeine level is: ${this.caffeineLevels}`);
    }
    code(): void {
        if(this.caffeineLevels > 10 ){
            console.log(`${this.name} is coding like a pro`);
            this.caffeineLevels -= 10;
        } else { console.log(`${this.name} needs coffee first`) }
    }
}
```
-/

/-- Which branch a call to `code()` takes. -/
inductive CodeBranch where
  | success
  | needsCoffee
deriving DecidableEq, Repr

/-- A call on a `Developer` object. -/
inductive DevCall where
  | drinkCoffee
  | code
deriving DecidableEq, Repr

namespace Oop

structure Developer where
  name : String
  caffeineLevels : Int
deriving DecidableEq, Repr

def Developer.new (name : String) : Developer :=
  { name := name, caffeineLevels := 0 }

def Developer.drinkCoffee (d : Developer) : Developer × String :=
  let d2 : Developer := { d with caffeineLevels := d.caffeineLevels + 2 }
  (d2, d.name ++ " drinks coffee and their new caffeine level is: " ++
        toString d2.caffeineLevels)

def Developer.code (d : Developer) : Developer × String × CodeBranch :=
  if d.caffeineLevels > 10 then
    ({ d with caffeineLevels := d.caffeineLevels - 10 },
      d.name ++ " is coding like a pro", .success)
  else
    (d, d.name ++ " needs coffee first", .needsCoffee)

/-- The state transition of one method call (output discarded). -/
def Developer.step (d : Developer) : DevCall → Developer
  | .drinkCoffee => d.drinkCoffee.1
  | .code => d.code.1

/-- Run a finite call sequence from a freshly constructed instance. -/
def run (name : String) (calls : List DevCall) : Developer :=
  calls.foldl Developer.step (Developer.new name)

/-- The branch `code()` would take at each point of the sequence,
recorded for the `code` calls in order. -/
def branchesFrom (d : Developer) : List DevCall → List CodeBranch
  | [] => []
  | c :: cs =>
    match c with
    | .drinkCoffee => branchesFrom (d.step .drinkCoffee) cs
    | .code => d.code.2.2 :: branchesFrom (d.step .code) cs

def branches (name : String) (calls : List DevCall) : List CodeBranch :=
  branchesFrom (Developer.new name) calls

end Oop

/-! ### The `Developer` class from the OOP guide (`src/unnamed/part_000`,
first copy, lines 25–47)

```ts
class Developer {
  name: string;
  caffeineLevel: number;
  constructor(name: string) { this.name = name; this.caffeineLevel = 0; }
  drinkCoffee(): void {
    this.caffeineLevel += 20;
    console.log(`${this.name} drinks coffee. Caffeine level: ${this.caffeineLevel}`);
  }
  code(): void {
    if (this.caffeineLevel > 0) {
      console.log(`${this.name} is coding like a machine! 💻`);
      this.caffeineLevel -= 10;
    } else { console.log(`${this.name} needs coffee first... ☕`); }
  }
}
```
-/

namespace Guide

structure Developer where
  name : String
  caffeineLevel : Int
deriving DecidableEq, Repr

def Developer.new (name : String) : Developer :=
  { name := name, caffeineLevel := 0 }

def Developer.drinkCoffee (d : Developer) : Developer × String :=
  let d2 : Developer := { d with caffeineLevel := d.caffeineLevel + 20 }
  (d2, d.name ++ " drinks coffee. Caffeine level: " ++ toString d2.caffeineLevel)

def Developer.code (d : Developer) : Developer × String × CodeBranch :=
  if d.caffeineLevel > 0 then
    ({ d with caffeineLevel := d.caffeineLevel - 10 },
      d.name ++ " is coding like a machine! 💻", .success)
  else
    (d, d.name ++ " needs coffee first... ☕", .needsCoffee)

def Developer.step (d : Developer) : DevCall → Developer
  | .drinkCoffee => d.drinkCoffee.1
  | .code => d.code.1

def run (name : String) (calls : List DevCall) : Developer :=
  calls.foldl Developer.step (Developer.new name)

def branchesFrom (d : Developer) : List DevCall → List CodeBranch
  | [] => []
  | c :: cs =>
    match c with
    | .drinkCoffee => branchesFrom (d.step .drinkCoffee) cs
    | .code => d.code.2.2 :: branchesFrom (d.step .code) cs

def branches (name : String) (calls : List DevCall) : List CodeBranch :=
  branchesFrom (Developer.new name) calls

/-- The demo following the class in the guide:
`const junior = new Developer("Alice"); junior.drinkCoffee(); junior.code();`
collected as the list of printed lines. -/
def demoOutput : List String :=
  let junior := Developer.new "Alice"
  let r1 := junior.drinkCoffee
  let r2 := r1.1.code
  [r1.2, r2.2.1]

/-- The branch the demo's `code()` call takes. -/
def demoCodeBranch : CodeBranch :=
  ((Developer.new "Alice").drinkCoffee.1.code).2.2

end Guide

/-! ### The second, duplicated copy of the guide `Developer`
(`src/unnamed/part_000`, lines 364–386).  The guide appears twice in the
file; the second copy has byte-mangled emojis in its console strings but
identical logic.  Its state behaviour is embedded separately so the two
copies can be compared. -/

namespace Guide2

structure Developer where
  name : String
  caffeineLevel : Int
deriving DecidableEq, Repr

def Developer.new (name : String) : Developer :=
  { name := name, caffeineLevel := 0 }

def Developer.drinkCoffee (d : Developer) : Developer :=
  { d with caffeineLevel := d.caffeineLevel + 20 }

def Developer.code (d : Developer) : Developer × CodeBranch :=
  if d.caffeineLevel > 0 then
    ({ d with caffeineLevel := d.caffeineLevel - 10 }, .success)
  else
    (d, .needsCoffee)

def Developer.step (d : Developer) : DevCall → Developer
  | .drinkCoffee => d.drinkCoffee
  | .code => d.code.1

def run (name : String) (calls : List DevCall) : Developer :=
  calls.foldl Developer.step (Developer.new name)

def branchesFrom (d : Developer) : List DevCall → List CodeBranch
  | [] => []
  | c :: cs =>
    match c with
    | .drinkCoffee => branchesFrom (d.step .drinkCoffee) cs
    | .code => d.code.2 :: branchesFrom (d.step .code) cs

def branches (name : String) (calls : List DevCall) : List CodeBranch :=
  branchesFrom (Developer.new name) calls

end Guide2

/-! ### `GitRepository` from `src/8. Typescript/oop.ts`

```ts
class GitRepository {
    private secretToken: string;
    public repoName: string;
    public commits: number;
    constructor(repoName: string, token: string) {
        this.repoName = repoName; this.secretToken = token; this.commits = 0;
    }
    public push(message: string): void {
        if(this.authenticate()) {
            this.commits++;
            console.log(`pushed: "${message}" (Total commits: ${this.commits})`)
        }
    }
    private authenticate(): boolean {
        console.log('Authenticating using secret token....')
        return this.secretToken.length > 0;
    }
}
```
-/

structure GitRepository where
  secretToken : String
  repoName : String
  commits : Int
deriving DecidableEq, Repr

def GitRepository.new (repoName : String) (token : String) : GitRepository :=
  { repoName := repoName, secretToken := token, commits := 0 }

/-- The line `authenticate` always logs. -/
def authLine : String := "Authenticating using secret token...."

/-- The confirmation line `push` logs when authentication succeeds. -/
def pushedLine (message : String) (total : Int) : String :=
  "pushed: \"" ++ message ++ "\" (Total commits: " ++ toString total ++ ")"

def GitRepository.authenticate (repo : GitRepository) : Bool × String :=
  (repo.secretToken.length > 0, authLine)

def GitRepository.push (repo : GitRepository) (message : String) :
    GitRepository × List String :=
  let auth := repo.authenticate
  if auth.1 then
    let repo2 : GitRepository := { repo with commits := repo.commits + 1 }
    (repo2, [auth.2, pushedLine message repo2.commits])
  else
    (repo, [auth.2])

/-! ### `DataStorage<T>` from `src/8. Typescript/advanced_ts.md` (and its
copy in `src/unnamed/part_001`)

```ts
class DataStorage<T> {
  private data: T[] = [];
  addItem(item: T): void { this.data.push(item); }
  removeItem(item: T): void { this.data = this.data.filter(i => i !== item); }
  getItems(): T[] { return [...this.data]; }
}
```

The private `data` array is the state; at the snippet's instantiations
(`string`, `number`) the strict inequality `i !== item` is decidable
value inequality. -/

def addItem {T : Type} (data : List T) (item : T) : List T :=
  data ++ [item]

def removeItem {T : Type} [DecidableEq T] (data : List T) (item : T) : List T :=
  data.filter (fun i => i ≠ item)

def getItems {T : Type} (data : List T) : List T :=
  data

/-! #### Heap-level model of `DataStorage`, for the aliasing claim

`getItems()` returns `[...this.data]`: a *fresh* array holding a copy of
the elements.  To state that mutating the returned array cannot affect
the storage, arrays are modelled as references into a heap: a `Heap` is
the list of allocated arrays, a reference is an index into it, and a
`DataStorage` object is the reference held in its private `data` field.
`allocH` models array-literal allocation (`[...x]` / `= []`), `writeH`
models in-place mutation of an array through a reference. -/

structure Heap (T : Type) where
  arrays : List (List T)
deriving Repr

def Heap.read {T : Type} (h : Heap T) (r : Nat) : List T :=
  h.arrays.getD r []

def Heap.alloc {T : Type} (h : Heap T) (v : List T) : Nat × Heap T :=
  (h.arrays.length, ⟨h.arrays ++ [v]⟩)

def Heap.write {T : Type} (h : Heap T) (r : Nat) (v : List T) : Heap T :=
  ⟨h.arrays.set r v⟩

/-- `getItems()` on the object whose `data` field is the reference
`st`: allocate a fresh array containing a copy of the data, return the
new reference. -/
def getItemsH {T : Type} (h : Heap T) (st : Nat) : Nat × Heap T :=
  h.alloc (h.read st)

/-- `addItem(x)`: `this.data.push(item)` mutates the data array in
place. -/
def addItemH {T : Type} (h : Heap T) (st : Nat) (x : T) : Heap T :=
  h.write st (h.read st ++ [x])

/-- `removeItem(x)`: `this.data = this.data.filter(...)`; `filter`
allocates, but the observable storage content is the new list. -/
def removeItemH {T : Type} [DecidableEq T] (h : Heap T) (st : Nat) (x : T) : Heap T :=
  h.write st ((h.read st).filter (fun i => i ≠ x))

/-! ### `DataProcessor.fetchData` from `src/Javascript/ES6.md`

```js
class DataProcessor {
    constructor(apiUrl) { this.apiUrl = apiUrl; this.cache = new Map(); }
    async fetchData(endpoint, params = {}) {
        const url = `${this.apiUrl}/${endpoint}`;
        const cacheKey = `${url}-${JSON.stringify(params)}`;
        if (this.cache.has(cacheKey)) { return this.cache.get(cacheKey); }
        try {
            const response = await fetch(url, {...});
            if (!response.ok) { throw new Error(...); }
            const data = await response.json();
            this.cache.set(cacheKey, data);
            return data;
        } catch (error) { console.error(...); throw error; }
    }
}
```

`params` is embedded as its (deterministic) `JSON.stringify` image, so
equal params give equal serializations; the external `fetch`+`response`
pipeline is a parameter `fetchFn` mapping the url and serialized body to
either the parsed data or a thrown error.  `fetchData` returns the
result, the updated processor, and the list of cache keys for which the
underlying fetch was actually performed during the call. -/

structure DataProcessor (Data : Type) where
  apiUrl : String
  cache : List (String × Data)
deriving Repr

def fetchData {Data : Type} (fetchFn : String → String → Except String Data)
    (dp : DataProcessor Data) (endpoint : String) (params : String) :
    Except String Data × DataProcessor Data × List String :=
  let url := dp.apiUrl ++ "/" ++ endpoint
  let cacheKey := url ++ "-" ++ params
  match dp.cache.lookup cacheKey with
  | some d => (.ok d, dp, [])
  | none =>
    match fetchFn url params with
    | .ok data => (.ok data, { dp with cache := (cacheKey, data) :: dp.cache }, [cacheKey])
    | .error e => (.error e, dp, [cacheKey])

/-! ### `createRangeIterator` from `src/Javascript/ES6.md`

```js
function createRangeIterator(start, end) {
    let current = start;
    return {
        next() {
            if (current < end) {
                return { value: current++, done: false };
            } else {
                return { done: true };
            }
        }
    };
}
```

The iterator's captured state is `current` (with `end` fixed).  A call
to `next()` returns `some v` for `{ value: v, done: false }` and `none`
for `{ done: true }`, together with the updated state. -/

structure RangeIterator where
  current : Int
  stop : Int
deriving DecidableEq, Repr

def createRangeIterator (start : Int) (stop : Int) : RangeIterator :=
  { current := start, stop := stop }

def RangeIterator.next (it : RangeIterator) : Option Int × RangeIterator :=
  if it.current < it.stop then
    (some it.current, { it with current := it.current + 1 })
  else
    (none, it)

/-- The iterator state after `k` calls to `next()`. -/
def iterAfter (start : Int) (stop : Int) : Nat → RangeIterator
  | 0 => createRangeIterator start stop
  | k + 1 => ((iterAfter start stop k).next).2

/-! ### The promise chain from `src/Javascript/ES6.md` (steps section)

```js
function step1() { return new Promise(resolve => {
    setTimeout(() => resolve("Step 1 completed"), 1000); }); }
function step2(previousResult) { return new Promise(resolve => {
    setTimeout(() => resolve(`${previousResult} -> Step 2 completed`), 1000); }); }
function step3(previousResult) { return new Promise(resolve => {
    setTimeout(() => resolve(`${previousResult} -> Step 3 completed`), 1000); }); }
step1().then(r1 => step2(r1)).then(r2 => step3(r2)).then(...).catch(...)
```

Each step's executor only ever calls `resolve`, so each settles
resolved. -/

def step1 : PromiseResult String String :=
  .resolved "Step 1 completed"

def step2 (previousResult : String) : PromiseResult String String :=
  .resolved (previousResult ++ " -> Step 2 completed")

def step3 (previousResult : String) : PromiseResult String String :=
  .resolved (previousResult ++ " -> Step 3 completed")

/-- The chained promise `step1().then(step2).then(step3)` (the logging
`.then` handlers pass the value through unchanged). -/
def chainResult : PromiseResult String String :=
  thenP (thenP step1 step2) step3

/-! ## Theorems -/

/-- C1: the code at the narrated failing input.  `fetchUser(24)` does not
reject: because `user_id = usersId` inside the `if` is an assignment
(whose value `1` is truthy), the promise resolves with
`{id: 1, name: 'Tiff'}` for every argument, so the `.catch` handler
after `fetchUser(24)` never runs — contradicting the inline narration
that a non-`1` id rejects with `'Failed to fetch user'`. -/
theorem C1_fetchUser_24_resolves :
    fetchUser 24 = PromiseResult.resolved { id := 1, name := "Tiff" }
    ∧ catchRuns (fetchUser 24) = false :=
  ⟨rfl, rfl⟩

/-- The two copies of the guide `Developer` (lines 25–47 and 364–386 of
the OOP guide file) produce the same caffeine level and the same branch
choices from any pair of states with equal caffeine levels. -/
theorem guide_copies_from_eq :
    ∀ (calls : List DevCall) (d : Guide.Developer) (e : Guide2.Developer),
      d.caffeineLevel = e.caffeineLevel →
      (calls.foldl Guide.Developer.step d).caffeineLevel =
        (calls.foldl Guide2.Developer.step e).caffeineLevel
      ∧ Guide.branchesFrom d calls = Guide2.branchesFrom e calls := by
  intro calls
  induction calls with
  | nil =>
    intro d e hl
    exact ⟨hl, rfl⟩
  | cons c cs ih =>
    intro d e hl
    obtain ⟨nd, ld⟩ := d
    obtain ⟨ne2, le2⟩ := e
    simp only at hl
    subst hl
    cases c with
    | drinkCoffee =>
      simp only [List.foldl_cons, Guide.branchesFrom, Guide2.branchesFrom]
      exact ih _ _ (by simp [Guide.Developer.step, Guide2.Developer.step,
        Guide.Developer.drinkCoffee, Guide2.Developer.drinkCoffee])
    | code =>
      simp only [List.foldl_cons, Guide.branchesFrom, Guide2.branchesFrom]
      by_cases hpos : (0 : Int) < ld
      · have hstep : (Guide.Developer.step ⟨nd, ld⟩ DevCall.code).caffeineLevel =
            (Guide2.Developer.step ⟨ne2, ld⟩ DevCall.code).caffeineLevel := by
          simp [Guide.Developer.step, Guide2.Developer.step,
            Guide.Developer.code, Guide2.Developer.code, hpos]
        refine ⟨(ih _ _ hstep).1, ?_⟩
        have hb : (Guide.Developer.code ⟨nd, ld⟩).2.2 =
            (Guide2.Developer.code ⟨ne2, ld⟩).2 := by
          simp [Guide.Developer.code, Guide2.Developer.code, hpos]
        rw [hb, (ih _ _ hstep).2]
      · have hstep : (Guide.Developer.step ⟨nd, ld⟩ DevCall.code).caffeineLevel =
            (Guide2.Developer.step ⟨ne2, ld⟩ DevCall.code).caffeineLevel := by
          simp [Guide.Developer.step, Guide2.Developer.step,
            Guide.Developer.code, Guide2.Developer.code, hpos]
        refine ⟨(ih _ _ hstep).1, ?_⟩
        have hb : (Guide.Developer.code ⟨nd, ld⟩).2.2 =
            (Guide2.Developer.code ⟨ne2, ld⟩).2 := by
          simp [Guide.Developer.code, Guide2.Developer.code, hpos]
        rw [hb, (ih _ _ hstep).2]

/-- C2 (counterexample): the `Developer` in `oop.ts` and the `Developer`
of the OOP guide are *not* behaviorally equal.  On the call sequence
`drinkCoffee(); code()` from a fresh instance, the `oop.ts` version ends
at caffeine level 2 with `code()` taking the needs-coffee branch, while
the guide version ends at level 10 with `code()` taking the success
branch. -/
theorem C2_oop_vs_guide_counterexample :
    ¬ ((Oop.run "Alice" [DevCall.drinkCoffee, DevCall.code]).caffeineLevels =
        (Guide.run "Alice" [DevCall.drinkCoffee, DevCall.code]).caffeineLevel
      ∧ Oop.branches "Alice" [DevCall.drinkCoffee, DevCall.code] =
        Guide.branches "Alice" [DevCall.drinkCoffee, DevCall.code]) := by
  decide

/-- C2 (amended): the two duplicated copies of the `Developer` class in
the OOP guide are behaviorally equal: from a freshly constructed
instance, every finite sequence of `drinkCoffee` and `code` calls yields
the same caffeine level and the same success/needs-coffee branch choices
in both copies.  (The `oop.ts` `Developer` differs from both.) -/
theorem C2_guide_copies_equal (name : String) (calls : List DevCall) :
    (Guide.run name calls).caffeineLevel = (Guide2.run name calls).caffeineLevel
    ∧ Guide.branches name calls = Guide2.branches name calls :=
  guide_copies_from_eq calls (Guide.Developer.new name) (Guide2.Developer.new name) rfl

/-- C6: the `Developer` demo in the OOP guide prints exactly the lines
shown in its comments, and the `code()` call takes the success branch. -/
theorem C6_demo_prints_narrated_lines :
    Guide.demoOutput = ["Alice drinks coffee. Caffeine level: 20",
      "Alice is coding like a machine! 💻"]
    ∧ Guide.demoCodeBranch = CodeBranch.success :=
  ⟨rfl, rfl⟩

/-- C8: the promise chain `step1().then(step2).then(step3)` resolves to
the narrated final value and its `.catch` handler never runs. -/
theorem C8_chain_resolves_narrated :
    chainResult = PromiseResult.resolved
      "Step 1 completed -> Step 2 completed -> Step 3 completed"
    ∧ catchRuns chainResult = false :=
  ⟨rfl, rfl⟩

/-- Non-negativity is preserved along any call sequence for the `oop.ts`
`Developer`: `drinkCoffee` adds 2 and `code` subtracts 10 only when the
level exceeds 10. -/
theorem oop_nonneg_from :
    ∀ (calls : List DevCall) (d : Oop.Developer), 0 ≤ d.caffeineLevels →
      0 ≤ (calls.foldl Oop.Developer.step d).caffeineLevels := by
  intro calls
  induction calls with
  | nil => intro d hd; exact hd
  | cons c cs ih =>
    intro d hd
    cases c with
    | drinkCoffee =>
      refine ih _ ?_
      simp only [Oop.Developer.step, Oop.Developer.drinkCoffee]
      omega
    | code =>
      refine ih _ ?_
      simp only [Oop.Developer.step, Oop.Developer.code]
      by_cases hgt : d.caffeineLevels > 10
      · simp only [if_pos hgt]
        omega
      · simp only [if_neg hgt]
        exact hd

/-- The guide `Developer` maintains the invariant that the caffeine
level is non-negative and divisible by 10: `drinkCoffee` adds 20 and
`code` subtracts 10 only when the level is positive, hence at least
10. -/
theorem guide_inv_from :
    ∀ (calls : List DevCall) (d : Guide.Developer),
      0 ≤ d.caffeineLevel → (10 : Int) ∣ d.caffeineLevel →
      0 ≤ (calls.foldl Guide.Developer.step d).caffeineLevel
      ∧ (10 : Int) ∣ (calls.foldl Guide.Developer.step d).caffeineLevel := by
  intro calls
  induction calls with
  | nil => intro d h0 hdvd; exact ⟨h0, hdvd⟩
  | cons c cs ih =>
    intro d h0 hdvd
    obtain ⟨m, hm⟩ := hdvd
    cases c with
    | drinkCoffee =>
      refine ih _ ?_ ?_
      · simp only [Guide.Developer.step, Guide.Developer.drinkCoffee]
        omega
      · simp only [Guide.Developer.step, Guide.Developer.drinkCoffee]
        exact ⟨m + 2, by omega⟩
    | code =>
      by_cases hpos : d.caffeineLevel > 0
      · refine ih _ ?_ ?_
        · simp only [Guide.Developer.step, Guide.Developer.code, if_pos hpos]
          omega
        · simp only [Guide.Developer.step, Guide.Developer.code, if_pos hpos]
          exact ⟨m - 1, by omega⟩
      · refine ih _ ?_ ?_
        · simp only [Guide.Developer.step, Guide.Developer.code, if_neg hpos]
          exact h0
        · simp only [Guide.Developer.step, Guide.Developer.code, if_neg hpos]
          exact ⟨m, hm⟩

/-- C9: in both `Developer` variants the caffeine level stays
non-negative along every finite call sequence from a fresh instance. -/
theorem C9_caffeine_never_negative (name : String) (calls : List DevCall) :
    0 ≤ (Oop.run name calls).caffeineLevels
    ∧ 0 ≤ (Guide.run name calls).caffeineLevel :=
  ⟨oop_nonneg_from calls (Oop.Developer.new name) (by exact le_refl 0),
   (guide_inv_from calls (Guide.Developer.new name) (le_refl 0) ⟨0, rfl⟩).1⟩

/-- A string has positive length exactly when it is non-empty. -/
theorem string_length_pos_iff (s : String) : 0 < s.length ↔ s ≠ "" := by
  obtain ⟨data⟩ := s
  constructor
  · intro h hEq
    rw [hEq] at h
    simp at h
  · intro h
    rcases data with _ | ⟨c, cs⟩
    · exact absurd rfl h
    · simp

/-- The pushed-confirmation line never coincides with the
authentication line (their first characters differ). -/
theorem pushedLine_ne_authLine (m : String) (k : Int) : pushedLine m k ≠ authLine := by
  intro h
  have h2 : (pushedLine m k).data.head? = authLine.data.head? := by rw [h]
  simp only [pushedLine, authLine, String.data_append] at h2
  simp only [List.cons_append, List.head?_cons, Option.some.injEq] at h2
  exact absurd h2 (by decide)

/-- C3: `push(message)` increments `commits` by exactly one and prints
the pushed-confirmation line precisely when `secretToken` is non-empty;
with an empty token it leaves the repository unchanged and prints only
the authentication line, which is not a pushed line. -/
theorem C3_push_spec (repo : GitRepository) (message : String) :
    (repo.secretToken ≠ "" →
      (repo.push message).1 = { repo with commits := repo.commits + 1 }
      ∧ (repo.push message).2 = [authLine, pushedLine message (repo.commits + 1)])
    ∧ (repo.secretToken = "" →
      (repo.push message).1 = repo
      ∧ (repo.push message).2 = [authLine]
      ∧ ∀ (m : String) (k : Int), pushedLine m k ∉ (repo.push message).2) := by
  by_cases he : repo.secretToken = ""
  · have hlen : ¬ (repo.secretToken.length > 0) := by
      rw [he]
      simp
    have hpush : repo.push message = (repo, [authLine]) := by
      simp only [GitRepository.push, GitRepository.authenticate]
      rw [decide_eq_false hlen]
      rfl
    refine ⟨fun hne => absurd he hne, fun _ => ?_⟩
    rw [hpush]
    refine ⟨rfl, rfl, ?_⟩
    intro m k hmem
    simp only [List.mem_singleton] at hmem
    exact pushedLine_ne_authLine m k hmem
  · have hlen : repo.secretToken.length > 0 := (string_length_pos_iff _).mpr he
    have hpush : repo.push message =
        ({ repo with commits := repo.commits + 1 },
          [authLine, pushedLine message (repo.commits + 1)]) := by
      simp only [GitRepository.push, GitRepository.authenticate]
      rw [decide_eq_true hlen]
      rfl
    refine ⟨fun _ => ?_, fun heq => absurd heq he⟩
    rw [hpush]
    exact ⟨rfl, rfl⟩

/-- C3 witness: the theorem applied to a repository with a non-empty
token and to one with an empty token. -/
theorem C3_push_spec_witness :
    ((GitRepository.new "my-ts-app" "1234rtfgvdhwqmjbxc").secretToken ≠ ""
      ∧ ((GitRepository.new "my-ts-app" "1234rtfgvdhwqmjbxc").push "fix").1
          = { GitRepository.new "my-ts-app" "1234rtfgvdhwqmjbxc" with
                commits := (GitRepository.new "my-ts-app" "1234rtfgvdhwqmjbxc").commits + 1 }
      ∧ ((GitRepository.new "my-ts-app" "1234rtfgvdhwqmjbxc").push "fix").2
          = [authLine, pushedLine "fix"
              ((GitRepository.new "my-ts-app" "1234rtfgvdhwqmjbxc").commits + 1)])
    ∧ ((GitRepository.new "r" "").secretToken = ""
      ∧ ((GitRepository.new "r" "").push "m").1 = GitRepository.new "r" ""
      ∧ ((GitRepository.new "r" "").push "m").2 = [authLine]) := by
  refine ⟨⟨by decide, ?_⟩, ⟨rfl, ?_⟩⟩
  · exact (C3_push_spec (GitRepository.new "my-ts-app" "1234rtfgvdhwqmjbxc") "fix").1
      (by decide)
  · have h := (C3_push_spec (GitRepository.new "r" "") "m").2 rfl
    exact ⟨h.1, h.2.1⟩

/-- C4: on a state not containing `x`, `addItem(x)` followed by
`removeItem(x)` restores `getItems()` exactly; and after `removeItem(x)`
on any state, `getItems()` contains no element equal to `x` (every
occurrence is removed). -/
theorem C4_dataStorage_add_remove {T : Type} [DecidableEq T] (data : List T) (x : T)
    (h : x ∉ data) :
    removeItem (addItem data x) x = getItems data
    ∧ ∀ d : List T, x ∉ getItems (removeItem d x) := by
  constructor
  · simp only [removeItem, addItem, getItems, List.filter_append]
    have h1 : data.filter (fun i => decide (i ≠ x)) = data := by
      refine List.filter_eq_self.mpr (fun a ha => ?_)
      simp only [decide_eq_true_iff]
      intro hax
      exact h (hax ▸ ha)
    have h2 : [x].filter (fun i => decide (i ≠ x)) = [] := by simp
    rw [h1, h2, List.append_nil]
  · intro d
    simp [getItems, removeItem, List.mem_filter]

/-- C4 witness: the theorem applied at `data = [1, 2]`, `x = 3`. -/
theorem C4_dataStorage_add_remove_witness :
    (3 ∉ ([1, 2] : List Nat))
    ∧ removeItem (addItem ([1, 2] : List Nat) 3) 3 = getItems [1, 2]
    ∧ 3 ∉ getItems (removeItem ([1, 2, 3] : List Nat) 3) :=
  ⟨by decide, (C4_dataStorage_add_remove [1, 2] 3 (by decide)).1,
    (C4_dataStorage_add_remove [1, 2] 3 (by decide)).2 [1, 2, 3]⟩

/-- A `fetchData` call whose cache key is present returns the cached
data without touching the underlying fetch. -/
theorem fetchData_cache_hit {Data : Type}
    (fetchFn : String → String → Except String Data)
    (dp : DataProcessor Data) (endpoint params : String) (d : Data)
    (hl : List.lookup (dp.apiUrl ++ "/" ++ endpoint ++ "-" ++ params) dp.cache = some d) :
    fetchData fetchFn dp endpoint params = (Except.ok d, dp, []) := by
  simp only [fetchData]
  rw [hl]

/-- A `fetchData` call on a cache miss whose underlying fetch succeeds
stores the data under the cache key and reports the one fetch. -/
theorem fetchData_cache_miss_ok {Data : Type}
    (fetchFn : String → String → Except String Data)
    (dp : DataProcessor Data) (endpoint params : String) (d : Data)
    (hl : List.lookup (dp.apiUrl ++ "/" ++ endpoint ++ "-" ++ params) dp.cache = none)
    (hf : fetchFn (dp.apiUrl ++ "/" ++ endpoint) params = Except.ok d) :
    fetchData fetchFn dp endpoint params =
      (Except.ok d,
        { dp with cache := (dp.apiUrl ++ "/" ++ endpoint ++ "-" ++ params, d) :: dp.cache },
        [dp.apiUrl ++ "/" ++ endpoint ++ "-" ++ params]) := by
  simp only [fetchData]
  rw [hl, hf]

/-- A `fetchData` call on a cache miss whose underlying fetch fails
rethrows the error and leaves the cache unchanged. -/
theorem fetchData_cache_miss_error {Data : Type}
    (fetchFn : String → String → Except String Data)
    (dp : DataProcessor Data) (endpoint params : String) (e : String)
    (hl : List.lookup (dp.apiUrl ++ "/" ++ endpoint ++ "-" ++ params) dp.cache = none)
    (hf : fetchFn (dp.apiUrl ++ "/" ++ endpoint) params = Except.error e) :
    fetchData fetchFn dp endpoint params =
      (Except.error e, dp, [dp.apiUrl ++ "/" ++ endpoint ++ "-" ++ params]) := by
  simp only [fetchData]
  rw [hl, hf]

/-- C5: if a first `fetchData(endpoint, params)` call succeeds, a second
call with equal endpoint and params returns the same data, leaves the
processor unchanged, performs no fetch of its own, and across both calls
the underlying fetch runs at most once. -/
theorem C5_fetchData_cached {Data : Type}
    (fetchFn : String → String → Except String Data)
    (dp : DataProcessor Data) (endpoint params : String) (d : Data)
    (h : (fetchData fetchFn dp endpoint params).1 = Except.ok d) :
    (fetchData fetchFn (fetchData fetchFn dp endpoint params).2.1 endpoint params).1
        = Except.ok d
    ∧ (fetchData fetchFn (fetchData fetchFn dp endpoint params).2.1 endpoint params).2.1
        = (fetchData fetchFn dp endpoint params).2.1
    ∧ (fetchData fetchFn (fetchData fetchFn dp endpoint params).2.1 endpoint params).2.2
        = []
    ∧ ((fetchData fetchFn dp endpoint params).2.2
        ++ (fetchData fetchFn (fetchData fetchFn dp endpoint params).2.1
              endpoint params).2.2).length ≤ 1 := by
  cases hcl : List.lookup (dp.apiUrl ++ "/" ++ endpoint ++ "-" ++ params) dp.cache with
  | some d0 =>
    have h1 := fetchData_cache_hit fetchFn dp endpoint params d0 hcl
    rw [h1] at h ⊢
    dsimp only at h ⊢
    rw [h1]
    dsimp only
    simp_all
  | none =>
    cases hf : fetchFn (dp.apiUrl ++ "/" ++ endpoint) params with
    | error e =>
      have h1 := fetchData_cache_miss_error fetchFn dp endpoint params e hcl hf
      rw [h1] at h
      simp at h
    | ok data0 =>
      have h1 := fetchData_cache_miss_ok fetchFn dp endpoint params data0 hcl hf
      rw [h1] at h ⊢
      dsimp only at h ⊢
      have h2 := fetchData_cache_hit fetchFn
        { dp with cache := (dp.apiUrl ++ "/" ++ endpoint ++ "-" ++ params, data0) :: dp.cache }
        endpoint params data0 (by simp)
      rw [h2]
      dsimp only
      simp_all

/-- C5 witness: the theorem applied to a concrete processor and fetch
function. -/
theorem C5_fetchData_cached_witness :
    (fetchData (fun _ _ => Except.ok (7 : Nat))
        { apiUrl := "api", cache := [] } "users" "p").1 = Except.ok 7
    ∧ (fetchData (fun _ _ => Except.ok (7 : Nat))
        (fetchData (fun _ _ => Except.ok (7 : Nat))
          { apiUrl := "api", cache := [] } "users" "p").2.1 "users" "p").1
        = Except.ok 7 :=
  ⟨rfl, (C5_fetchData_cached (fun _ _ => Except.ok (7 : Nat))
    { apiUrl := "api", cache := [] } "users" "p" 7 rfl).1⟩

/-- After `k` calls to `next()`, the captured `end` is unchanged and
`current` has advanced by `k`, clamped at `end` (and never moves when
the range is empty). -/
theorem iterAfter_current (start stop : Int) :
    ∀ k : Nat, (iterAfter start stop k).stop = stop
      ∧ (iterAfter start stop k).current
          = start + min (k : Int) (max (stop - start) 0) := by
  intro k
  induction k with
  | zero =>
    refine ⟨rfl, ?_⟩
    simp only [iterAfter, createRangeIterator]
    omega
  | succ k ih =>
    obtain ⟨hs, hc⟩ := ih
    simp only [iterAfter, RangeIterator.next]
    split
    case isTrue hlt =>
      refine ⟨hs, ?_⟩
      simp only []
      rw [hs, hc] at hlt
      rw [hc]
      omega
    case isFalse hge =>
      refine ⟨hs, ?_⟩
      rw [hs, hc] at hge
      rw [hc]
      omega

/-- C7: the iterator from `createRangeIterator(start, end)` yields the
values `start, start+1, …, end-1` (the `k`-th `next()` returns
`{value: start+k, done: false}` for `k < end-start`) and every later
`next()` — in particular the very first one when `start >= end` —
returns `{done: true}`. -/
theorem C7_createRangeIterator (start stop : Int) :
    (∀ k : Nat, (k : Int) < stop - start →
      ((iterAfter start stop k).next).1 = some (start + k))
    ∧ (∀ k : Nat, stop - start ≤ (k : Int) →
      ((iterAfter start stop k).next).1 = none) := by
  constructor
  · intro k hk
    obtain ⟨hs, hc⟩ := iterAfter_current start stop k
    have hcond : (iterAfter start stop k).current < (iterAfter start stop k).stop := by
      rw [hc, hs]
      omega
    simp only [RangeIterator.next, if_pos hcond]
    rw [hc]
    congr 1
    omega
  · intro k hk
    obtain ⟨hs, hc⟩ := iterAfter_current start stop k
    have hcond : ¬ ((iterAfter start stop k).current < (iterAfter start stop k).stop) := by
      rw [hc, hs]
      omega
    simp only [RangeIterator.next, if_neg hcond]

/-- C7 witness: the theorem applied to the range `[1, 4)` of the guide
demo, at the third value and at exhaustion. -/
theorem C7_createRangeIterator_witness :
    ((2 : Int) < 4 - 1 ∧ ((iterAfter 1 4 2).next).1 = some (1 + (2 : Nat)))
    ∧ ((4 : Int) - 1 ≤ (3 : Nat) ∧ ((iterAfter 1 4 3).next).1 = none) :=
  ⟨⟨by decide, (C7_createRangeIterator 1 4).1 2 (by decide)⟩,
   ⟨by decide, (C7_createRangeIterator 1 4).2 3 (by decide)⟩⟩

/-- Reading an existing array is unchanged by an allocation. -/
theorem heap_read_alloc_of_lt {T : Type} (h : Heap T) (v : List T) (r : Nat)
    (hr : r < h.arrays.length) : ((h.alloc v).2).read r = h.read r := by
  simp only [Heap.alloc, Heap.read, List.getD_eq_getElem?_getD]
  rw [List.getElem?_append_left hr]

/-- Reading a freshly allocated array gives back the allocated value. -/
theorem heap_read_alloc_self {T : Type} (h : Heap T) (v : List T) :
    ((h.alloc v).2).read (h.alloc v).1 = v := by
  simp only [Heap.alloc, Heap.read, List.getD_eq_getElem?_getD]
  rw [List.getElem?_concat_length]
  rfl

/-- Writing through one reference does not change what another
reference reads. -/
theorem heap_read_write_ne {T : Type} (h : Heap T) (r s : Nat) (v : List T)
    (hrs : r ≠ s) : (h.write r v).read s = h.read s := by
  simp only [Heap.write, Heap.read, List.getD_eq_getElem?_getD]
  rw [List.getElem?_set_ne hrs]

/-- Reading back through the reference just written gives the written
value, provided the reference is allocated. -/
theorem heap_read_write_self {T : Type} (h : Heap T) (r : Nat) (v : List T)
    (hr : r < h.arrays.length) : (h.write r v).read r = v := by
  simp only [Heap.write, Heap.read, List.getD_eq_getElem?_getD]
  rw [List.getElem?_set_self (by simpa using hr)]
  rfl

/-- The array returned by `getItems()` reads back as the stored data. -/
theorem getItemsH_read_self {T : Type} (h : Heap T) (st : Nat) :
    (getItemsH h st).2.read (getItemsH h st).1 = h.read st :=
  heap_read_alloc_self h (h.read st)

/-- C10: `getItems()` is a defensive copy.  With the storage's private
`data` array at reference `st` in the heap, a `getItems()` call leaves
the stored data unchanged; its result reads back as the stored data,
twice in a row; the returned reference is distinct from the storage's;
and after mutating the returned array arbitrarily, the storage still
reads unchanged and later `getItems`, `addItem` and `removeItem` calls
behave exactly as on the unmutated storage. -/
theorem C10_getItems_defensive {T : Type} [DecidableEq T] (h : Heap T) (st : Nat)
    (hst : st < h.arrays.length) :
    ((getItemsH h st).2).read st = h.read st
    ∧ ((getItemsH h st).2).read (getItemsH h st).1 = h.read st
    ∧ (getItemsH ((getItemsH h st).2) st).2.read
        (getItemsH ((getItemsH h st).2) st).1 = h.read st
    ∧ (getItemsH h st).1 ≠ st
    ∧ ∀ v : List T,
        (((getItemsH h st).2).write (getItemsH h st).1 v).read st = h.read st
        ∧ (getItemsH (((getItemsH h st).2).write (getItemsH h st).1 v) st).2.read
            (getItemsH (((getItemsH h st).2).write (getItemsH h st).1 v) st).1
            = h.read st
        ∧ (∀ x : T,
            (addItemH (((getItemsH h st).2).write (getItemsH h st).1 v) st x).read st
              = h.read st ++ [x])
        ∧ (∀ x : T,
            (removeItemH (((getItemsH h st).2).write (getItemsH h st).1 v) st x).read st
              = (h.read st).filter (fun i => i ≠ x)) := by
  have hr1 : (getItemsH h st).1 = h.arrays.length := rfl
  have hne : (getItemsH h st).1 ≠ st := by
    rw [hr1]
    omega
  have hread1 : ((getItemsH h st).2).read st = h.read st :=
    heap_read_alloc_of_lt h (h.read st) st hst
  have hreadNew : ((getItemsH h st).2).read (getItemsH h st).1 = h.read st :=
    heap_read_alloc_self h (h.read st)
  have hlen1 : ((getItemsH h st).2).arrays.length = h.arrays.length + 1 := by
    simp [getItemsH, Heap.alloc]
  have hst1 : st < ((getItemsH h st).2).arrays.length := by
    rw [hlen1]
    omega
  refine ⟨hread1, hreadNew, ?_, hne, ?_⟩
  · rw [getItemsH_read_self, hread1]
  · intro v
    have hwr : (((getItemsH h st).2).write (getItemsH h st).1 v).read st = h.read st := by
      rw [heap_read_write_ne _ _ _ _ hne, hread1]
    have hlenw : (((getItemsH h st).2).write (getItemsH h st).1 v).arrays.length
        = h.arrays.length + 1 := by
      simp [Heap.write, hlen1]
    have hstw : st < (((getItemsH h st).2).write (getItemsH h st).1 v).arrays.length := by
      rw [hlenw]
      omega
    refine ⟨hwr, ?_, ?_, ?_⟩
    · rw [getItemsH_read_self, hwr]
    · intro x
      simp only [addItemH]
      rw [heap_read_write_self _ _ _ hstw, hwr]
    · intro x
      simp only [removeItemH]
      rw [heap_read_write_self _ _ _ hstw, hwr]

/-- C10 witness: the theorem applied to a one-array heap holding
`[1, 2]`, with the copy mutated to `[9]`. -/
theorem C10_getItems_defensive_witness :
    0 < (Heap.mk (T := Nat) [[1, 2]]).arrays.length
    ∧ (((getItemsH (Heap.mk (T := Nat) [[1, 2]]) 0).2).write
          (getItemsH (Heap.mk (T := Nat) [[1, 2]]) 0).1 [9]).read 0
        = (Heap.mk (T := Nat) [[1, 2]]).read 0 :=
  ⟨by decide,
    ((C10_getItems_defensive (Heap.mk [[1, 2]]) 0 (by decide)).2.2.2.2 [9]).1⟩

end Spec2Proof
